import Mathlib

/-!
Shallow embedding of the FlowViz AI service factory
(`src/ai-service-factory.js`): the two provider adapters
(`AnthropicService`, `OpenAIService`) and the `AIServiceFactory`
selector, together with theorems settling the specification claims.

Vendor transports are modelled as the finite sequence of chunks a
simulated stream delivers followed by how it ends (normal close or a
thrown error), and the async generators are modelled as the full list
of `StreamChunk` events they yield for that transport behaviour.
JavaScript truthiness of optional strings and numbers is modelled
explicitly (`undefined`, the empty string and `0` are falsy).
-/

/-- JavaScript truthiness of an optional string value: `undefined` and the
empty string are falsy, every other string is truthy. -/
def jsTruthy : Option String → Bool
  | none => false
  | some s => !(s == "")

/-- JavaScript `a || b` for an optional string `a` with default `b`:
`undefined` and the empty string fall through to the default. -/
def jsOrStr : Option String → String → String
  | none, b => b
  | some s, b => if s = "" then b else s

/-- JavaScript `a || b` for an optional number `a` with default `b`:
`undefined` and `0` fall through to the default. -/
def jsOrNat : Option Nat → Nat → Nat
  | none, b => b
  | some n, b => if n = 0 then b else n

/-- One event yielded by `streamAnalysis`: the `type` tag of the source's
`StreamChunk` union together with the payload field used by that tag. -/
inductive StreamChunk where
  | progress (stage : String) (message : String)
  | content (text : String)
  | error (err : String)
  | done
deriving DecidableEq, Repr

/-- The text payloads of the `content` events of a stream, in order. -/
def contentTexts : List StreamChunk → List String :=
  List.filterMap fun e =>
    match e with
    | .content t => some t
    | _ => none

/-- How a simulated vendor transport ends: a normal close of the stream, or a
thrown error whose `message` field may be absent. -/
inductive TransportEnd where
  | normalClose
  | failure (message : Option String)
deriving DecidableEq, Repr

/-- One event of the Anthropic SSE stream: a `content_block_delta` carrying a
`text_delta`, or any other event type (ignored by the loop). -/
inductive AnthropicChunk where
  | textDelta (text : String)
  | otherEvent
deriving DecidableEq, Repr

/-- A simulated Anthropic transport: the chunks delivered before the stream
ends, and how it ends. -/
structure AnthropicTransport where
  chunks : List AnthropicChunk
  ending : TransportEnd
deriving DecidableEq, Repr

/-- One chunk of the OpenAI completion stream, modelled by its
`choices[0]?.delta?.content` field (absent when there is no delta content). -/
structure OpenAIChunk where
  content : Option String
deriving DecidableEq, Repr

/-- A simulated OpenAI transport: the chunks delivered before the stream ends,
and how it ends. -/
structure OpenAITransport where
  chunks : List OpenAIChunk
  ending : TransportEnd
deriving DecidableEq, Repr

/-- The `type` tag of a `VisionMessage` fragment. -/
inductive VMType where
  | text
  | image
deriving DecidableEq, Repr

/-- The `image` payload of a `VisionMessage` fragment. -/
structure VImage where
  base64Data : String
  mediaType : String
deriving DecidableEq, Repr

/-- One fragment of a multi-modal vision prompt, mirroring the source's
`VisionMessage` interface with its optional `text` and `image` fields. -/
structure VisionMessage where
  type : VMType
  text : Option String
  image : Option VImage
deriving DecidableEq, Repr

/-- The nested `source` object of an Anthropic image content block. -/
structure AnthropicImageSource where
  type : String
  media_type : String
  data : String
deriving DecidableEq, Repr

/-- One entry of the `content` array of an Anthropic vision request. -/
inductive AnthropicBlock where
  | text (text : String)
  | image (source : AnthropicImageSource)
deriving DecidableEq, Repr

/-- One entry of the `content` array of an OpenAI vision request: a text part
or an `image_url` part holding an inline data-URL string. -/
inductive OpenAIBlock where
  | text (text : String)
  | imageUrl (url : String)
deriving DecidableEq, Repr

/-- The request an Anthropic vision call sends: bound model, resolved
`max_tokens`, and the single user message's content array. -/
structure AnthropicVisionRequest where
  model : String
  max_tokens : Nat
  content : List AnthropicBlock
deriving DecidableEq, Repr

/-- The request an OpenAI vision call sends: bound model, resolved
`max_tokens`, and the single user message's content array. -/
structure OpenAIVisionRequest where
  model : String
  max_tokens : Nat
  content : List OpenAIBlock
deriving DecidableEq, Repr

/-- The first observable action of a `visionAnalysis` call: either the adapter
proceeds to the vendor network call with a constructed request, or it raises a
synchronous input-validation error before any network activity. -/
inductive VisionStep (ρ : Type) where
  | networkCall (request : ρ)
  | inputError (message : String)
deriving DecidableEq, Repr

/-- True when the step is a network call rather than a validation failure. -/
def VisionStep.isNetworkCall {ρ : Type} : VisionStep ρ → Bool
  | .networkCall _ => true
  | .inputError _ => false

/-- One content block of an Anthropic vendor response. -/
inductive AnthropicRespBlock where
  | text (text : String)
  | other
deriving DecidableEq, Repr

/-- True for a text-typed response block. -/
def AnthropicRespBlock.isText : AnthropicRespBlock → Bool
  | .text _ => true
  | .other => false

/-- The metadata record returned by `getModelInfo`. -/
structure ModelInfo where
  provider : String
  model : String
  supportsVision : Bool
deriving DecidableEq, Repr

/-- Boolean test that `pat` is a leading run of `l`. -/
def charsLeading : List Char → List Char → Bool
  | [], _ => true
  | _ :: _, [] => false
  | a :: as, b :: bs => a = b && charsLeading as bs

/-- Boolean substring containment on character lists. -/
def charsContain : List Char → List Char → Bool
  | [], pat => pat.isEmpty
  | a :: t, pat => charsLeading pat (a :: t) || charsContain t pat

/-- JavaScript `s.includes(pat)`: substring containment. -/
def strIncludes (s pat : String) : Bool :=
  charsContain s.toList pat.toList

namespace AnthropicService

/-- Default model bound when the config supplies none. -/
def defaultModel : String := "claude-sonnet-4-20250514"

/-- The `content` event the streaming loop yields for one transport chunk:
only `content_block_delta` events with a `text_delta` produce output. -/
def yieldOfChunk : AnthropicChunk → Option StreamChunk
  | .textDelta t => some (.content t)
  | .otherEvent => none

/-- The full event sequence `AnthropicService.streamAnalysis` delivers for a
given transport behaviour: a `content` event per text delta, then `done` on a
normal close, or the single `error` event the catch block yields (defaulting
the message when the thrown error carries none). -/
def streamAnalysis (t : AnthropicTransport) : List StreamChunk :=
  t.chunks.filterMap yieldOfChunk ++
    match t.ending with
    | .normalClose => [.done]
    | .failure m => [.error (jsOrStr m "Anthropic API error")]

/-- How one `VisionMessage` is serialized into the Anthropic content array:
text fragments with a truthy `text` become text blocks, image fragments with
a present `image` object become nested base64 source blocks, everything else
is skipped. -/
def blockOfMessage (m : VisionMessage) : Option AnthropicBlock :=
  match m.type with
  | .text =>
    match m.text with
    | some t => if t = "" then none else some (.text t)
    | none => none
  | .image =>
    match m.image with
    | some img => some (.image ⟨"base64", img.mediaType, img.base64Data⟩)
    | none => none

/-- The content array `AnthropicService.visionAnalysis` builds from its input
fragments. -/
def visionContent (msgs : List VisionMessage) : List AnthropicBlock :=
  msgs.filterMap blockOfMessage

/-- The first observable action of `AnthropicService.visionAnalysis`: the body
performs no input validation and proceeds directly to the vendor call with
the built request. -/
def visionStep (model : String) (msgs : List VisionMessage)
    (maxTokens : Option Nat) : VisionStep AnthropicVisionRequest :=
  .networkCall ⟨model, jsOrNat maxTokens 4000, visionContent msgs⟩

/-- Result extraction of the Anthropic vision call:
`response.content[0]?.type === 'text' ? response.content[0].text : ''`. -/
def extractText : List AnthropicRespBlock → String
  | .text t :: _ => t
  | _ => ""

/-- `AnthropicService.visionAnalysis` as a function of the vendor's response
behaviour: build the request, make the single vendor call, extract the text
of the first response block when it is text-typed. -/
def visionAnalysis (model : String) (msgs : List VisionMessage)
    (maxTokens : Option Nat)
    (respond : AnthropicVisionRequest → List AnthropicRespBlock) : String :=
  extractText (respond ⟨model, jsOrNat maxTokens 4000, visionContent msgs⟩)

/-- `AnthropicService.getModelInfo` for an instance bound to `model`. -/
def getModelInfo (model : String) : ModelInfo :=
  ⟨"Anthropic Claude", model, true⟩

end AnthropicService

namespace OpenAIService

/-- Default model bound when the config supplies none. -/
def defaultModel : String := "gpt-4o"

/-- The `content` event the streaming loop yields for one transport chunk:
only chunks with truthy `choices[0]?.delta?.content` produce output. -/
def yieldOfChunk (c : OpenAIChunk) : Option StreamChunk :=
  match c.content with
  | some s => if s = "" then none else some (.content s)
  | none => none

/-- The full event sequence `OpenAIService.streamAnalysis` delivers for a
given transport behaviour: a `content` event per truthy delta, then `done` on
a normal close, or the single `error` event the catch block yields. -/
def streamAnalysis (t : OpenAITransport) : List StreamChunk :=
  t.chunks.filterMap yieldOfChunk ++
    match t.ending with
    | .normalClose => [.done]
    | .failure m => [.error (jsOrStr m "OpenAI API error")]

/-- How one `VisionMessage` is serialized into the OpenAI content array:
image fragments become `image_url` parts holding an inline data-URL built
from the media type and base64 payload. -/
def blockOfMessage (m : VisionMessage) : Option OpenAIBlock :=
  match m.type with
  | .text =>
    match m.text with
    | some t => if t = "" then none else some (.text t)
    | none => none
  | .image =>
    match m.image with
    | some img =>
        some (.imageUrl ("data:" ++ img.mediaType ++ ";base64," ++ img.base64Data))
    | none => none

/-- The content array `OpenAIService.visionAnalysis` builds from its input
fragments. -/
def visionContent (msgs : List VisionMessage) : List OpenAIBlock :=
  msgs.filterMap blockOfMessage

/-- The first observable action of `OpenAIService.visionAnalysis`: the body
performs no input validation and proceeds directly to the vendor call with
the built request. -/
def visionStep (model : String) (msgs : List VisionMessage)
    (maxTokens : Option Nat) : VisionStep OpenAIVisionRequest :=
  .networkCall ⟨model, jsOrNat maxTokens 4000, visionContent msgs⟩

/-- Result extraction of the OpenAI vision call:
`response.choices[0]?.message?.content || ''`; a choice is modelled by its
optional message content. -/
def extractText : List (Option String) → String
  | some c :: _ => if c = "" then "" else c
  | _ => ""

/-- `OpenAIService.visionAnalysis` as a function of the vendor's response
behaviour. -/
def visionAnalysis (model : String) (msgs : List VisionMessage)
    (maxTokens : Option Nat)
    (respond : OpenAIVisionRequest → List (Option String)) : String :=
  extractText (respond ⟨model, jsOrNat maxTokens 4000, visionContent msgs⟩)

/-- `OpenAIService.getModelInfo` for an instance bound to `model`:
`supportsVision` is `this.model.includes('gpt-4') || this.model === 'gpt-4o'`. -/
def getModelInfo (model : String) : ModelInfo :=
  ⟨"OpenAI ChatGPT", model, strIncludes model "gpt-4" || model == "gpt-4o"⟩

end OpenAIService

/-- The `AIConfig` record consumed by the factory. -/
structure AIConfig where
  provider : String
  apiKey : String
  baseURL : Option String
  model : Option String
deriving DecidableEq, Repr

/-- The state an adapter instance holds after construction: its identity,
credential, optional endpoint override and bound model name. -/
structure ServiceState where
  provider : String
  apiKey : String
  baseURL : Option String
  model : String
deriving DecidableEq, Repr

/-- The environment variables `AIServiceFactory` reads, each possibly
absent. -/
structure Env where
  AI_PROVIDER : Option String
  ANTHROPIC_API_KEY : Option String
  ANTHROPIC_BASE_URL : Option String
  ANTHROPIC_MODEL : Option String
  OPENAI_API_KEY : Option String
  OPENAI_BASE_URL : Option String
  OPENAI_MODEL : Option String
deriving DecidableEq, Repr

/-- True when an `Except` value is a success. -/
def exceptSucceeds {ε α : Type} : Except ε α → Bool
  | .ok _ => true
  | .error _ => false

namespace AIServiceFactory

/-- The known provider identities, in the order the source checks them. -/
def knownProviders : List String := ["anthropic", "openai"]

/-- `AIServiceFactory.create`: dispatch on `config.provider`, constructing the
matching adapter (binding the configured or default model), or throwing an
unsupported-provider error. -/
def create (config : AIConfig) : Except String ServiceState :=
  if config.provider = "anthropic" then
    .ok ⟨"anthropic", config.apiKey, config.baseURL,
      jsOrStr config.model AnthropicService.defaultModel⟩
  else if config.provider = "openai" then
    .ok ⟨"openai", config.apiKey, config.baseURL,
      jsOrStr config.model OpenAIService.defaultModel⟩
  else
    .error ("Unsupported AI provider: " ++ config.provider)

/-- `AIServiceFactory.getConfigFromEnv`: resolve the provider from the
argument, `AI_PROVIDER`, or the fixed default, then require that provider's
API key and return its config with the raw endpoint and model overrides. -/
def getConfigFromEnv (provider : Option String) (env : Env) :
    Except String AIConfig :=
  let envProvider := jsOrStr provider (jsOrStr env.AI_PROVIDER "anthropic")
  if envProvider = "anthropic" then
    match env.ANTHROPIC_API_KEY with
    | some key =>
        if key = "" then .error "ANTHROPIC_API_KEY not configured"
        else .ok ⟨"anthropic", key, env.ANTHROPIC_BASE_URL, env.ANTHROPIC_MODEL⟩
    | none => .error "ANTHROPIC_API_KEY not configured"
  else if envProvider = "openai" then
    match env.OPENAI_API_KEY with
    | some key =>
        if key = "" then .error "OPENAI_API_KEY not configured"
        else .ok ⟨"openai", key, env.OPENAI_BASE_URL, env.OPENAI_MODEL⟩
    | none => .error "OPENAI_API_KEY not configured"
  else
    .error ("Invalid AI provider: " ++ envProvider)

/-- `AIServiceFactory.isProviderConfigured`: try `getConfigFromEnv` and
convert any failure to `false`; on success test `!!config.apiKey`. -/
def isProviderConfigured (provider : String) (env : Env) : Bool :=
  match getConfigFromEnv (some provider) env with
  | .ok config => !(config.apiKey == "")
  | .error _ => false

/-- `AIServiceFactory.getAvailableProviders`: push `anthropic` then `openai`
when the corresponding API key is truthy. -/
def getAvailableProviders (env : Env) : List String :=
  (if jsTruthy env.ANTHROPIC_API_KEY then ["anthropic"] else []) ++
    (if jsTruthy env.OPENAI_API_KEY then ["openai"] else [])

/-- The credential environment variable of a known provider. -/
def credential (p : String) (env : Env) : Option String :=
  if p = "anthropic" then env.ANTHROPIC_API_KEY else env.OPENAI_API_KEY

/-- The endpoint-override environment variable of a known provider. -/
def baseURLOverride (p : String) (env : Env) : Option String :=
  if p = "anthropic" then env.ANTHROPIC_BASE_URL else env.OPENAI_BASE_URL

/-- The model-override environment variable of a known provider. -/
def modelOverride (p : String) (env : Env) : Option String :=
  if p = "anthropic" then env.ANTHROPIC_MODEL else env.OPENAI_MODEL

/-- The missing-credential error message of a known provider. -/
def missingKeyMsg (p : String) : String :=
  if p = "anthropic" then "ANTHROPIC_API_KEY not configured"
  else "OPENAI_API_KEY not configured"

end AIServiceFactory

/-- Split a character list at the first occurrence of `c`, returning the parts
before and after that occurrence. -/
def splitAtChar (c : Char) : List Char → Option (List Char × List Char)
  | [] => none
  | x :: xs =>
    if x = c then some ([], xs)
    else
      match splitAtChar c xs with
      | some (a, b) => some (x :: a, b)
      | none => none

/-- Decoder for the OpenAI inline data-URL image shape: strip the scheme,
read the media type up to the first semicolon, require the base64 marker, and
return the media type and payload. -/
def decodeDataUrl (s : String) : Option (String × String) :=
  match s.toList with
  | 'd' :: 'a' :: 't' :: 'a' :: ':' :: rest =>
    match splitAtChar ';' rest with
    | some (mt, r) =>
      match r with
      | 'b' :: 'a' :: 's' :: 'e' :: '6' :: '4' :: ',' :: payload =>
          some (String.mk mt, String.mk payload)
      | _ => none
    | none => none
  | _ => none

/-! Helper lemmas. -/

theorem filterMap_yield_anthropic (texts : List String) :
    List.filterMap (AnthropicService.yieldOfChunk ∘ AnthropicChunk.textDelta)
        texts = texts.map StreamChunk.content := by
  induction texts with
  | nil => rfl
  | cons a t ih =>
      simp [AnthropicService.yieldOfChunk, Function.comp, ih]

theorem filterMap_yield_openai (texts : List String) (h : ∀ s ∈ texts, s ≠ "") :
    List.filterMap (OpenAIService.yieldOfChunk ∘ fun s => OpenAIChunk.mk (some s))
        texts = texts.map StreamChunk.content := by
  induction texts with
  | nil => rfl
  | cons a t ih =>
      have ha : a ≠ "" := h a (by simp)
      have ht : ∀ s ∈ t, s ≠ "" := fun s hs => h s (by simp [hs])
      simp [OpenAIService.yieldOfChunk, Function.comp, ha, ih ht]

theorem contentTexts_map_done (texts : List String) :
    contentTexts (texts.map StreamChunk.content ++ [.done]) = texts := by
  induction texts with
  | nil => rfl
  | cons a t ih => simpa [contentTexts] using ih

theorem contentTexts_map_error (texts : List String) (m : String) :
    contentTexts (texts.map StreamChunk.content ++ [.error m]) = texts := by
  induction texts with
  | nil => rfl
  | cons a t ih => simpa [contentTexts] using ih

/-- C1: when the vendor transport emits N content chunks and then closes
normally, `streamAnalysis` on either adapter yields exactly the N `content`
events in emission order followed by exactly one `done` event and nothing
else, and the concatenation of the `content` texts is the full response
text. -/
theorem streamAnalysis_normal_close (texts : List String)
    (h : ∀ s ∈ texts, s ≠ "") :
    AnthropicService.streamAnalysis ⟨texts.map .textDelta, .normalClose⟩ =
        texts.map StreamChunk.content ++ [.done] ∧
    OpenAIService.streamAnalysis
        ⟨texts.map (fun s => OpenAIChunk.mk (some s)), .normalClose⟩ =
        texts.map StreamChunk.content ++ [.done] ∧
    String.join (contentTexts (AnthropicService.streamAnalysis
        ⟨texts.map .textDelta, .normalClose⟩)) = String.join texts ∧
    String.join (contentTexts (OpenAIService.streamAnalysis
        ⟨texts.map (fun s => OpenAIChunk.mk (some s)), .normalClose⟩)) =
        String.join texts := by
  have ha : AnthropicService.streamAnalysis
      ⟨texts.map .textDelta, .normalClose⟩ =
      texts.map StreamChunk.content ++ [.done] := by
    simp [AnthropicService.streamAnalysis, filterMap_yield_anthropic]
  have ho : OpenAIService.streamAnalysis
      ⟨texts.map (fun s => OpenAIChunk.mk (some s)), .normalClose⟩ =
      texts.map StreamChunk.content ++ [.done] := by
    simp [OpenAIService.streamAnalysis, filterMap_yield_openai texts h]
  exact ⟨ha, ho, by rw [ha, contentTexts_map_done],
    by rw [ho, contentTexts_map_done]⟩

/-- C1 witness: the spec's example, chunks `Ran`, `som`, `ware` followed by a
normal close. -/
theorem streamAnalysis_normal_close_witness :
    AnthropicService.streamAnalysis
        ⟨["Ran", "som", "ware"].map .textDelta, .normalClose⟩ =
        ["Ran", "som", "ware"].map StreamChunk.content ++ [.done] ∧
    OpenAIService.streamAnalysis
        ⟨["Ran", "som", "ware"].map (fun s => OpenAIChunk.mk (some s)),
          .normalClose⟩ =
        ["Ran", "som", "ware"].map StreamChunk.content ++ [.done] ∧
    String.join (contentTexts (AnthropicService.streamAnalysis
        ⟨["Ran", "som", "ware"].map .textDelta, .normalClose⟩)) =
        String.join ["Ran", "som", "ware"] ∧
    String.join (contentTexts (OpenAIService.streamAnalysis
        ⟨["Ran", "som", "ware"].map (fun s => OpenAIChunk.mk (some s)),
          .normalClose⟩)) = String.join ["Ran", "som", "ware"] :=
  streamAnalysis_normal_close ["Ran", "som", "ware"] (by decide)

/-- C2: when the transport or vendor reports an error after emitting some
content chunks, `streamAnalysis` on either adapter yields exactly the
`content` events already emitted, then exactly one `error` event carrying a
human-readable message, and no `done` event. -/
theorem streamAnalysis_midstream_error (texts : List String)
    (msg : Option String) (h : ∀ s ∈ texts, s ≠ "") :
    AnthropicService.streamAnalysis ⟨texts.map .textDelta, .failure msg⟩ =
        texts.map StreamChunk.content ++
          [.error (jsOrStr msg "Anthropic API error")] ∧
    OpenAIService.streamAnalysis
        ⟨texts.map (fun s => OpenAIChunk.mk (some s)), .failure msg⟩ =
        texts.map StreamChunk.content ++
          [.error (jsOrStr msg "OpenAI API error")] ∧
    StreamChunk.done ∉
        AnthropicService.streamAnalysis ⟨texts.map .textDelta, .failure msg⟩ ∧
    StreamChunk.done ∉ OpenAIService.streamAnalysis
        ⟨texts.map (fun s => OpenAIChunk.mk (some s)), .failure msg⟩ := by
  have ha : AnthropicService.streamAnalysis
      ⟨texts.map .textDelta, .failure msg⟩ =
      texts.map StreamChunk.content ++
        [.error (jsOrStr msg "Anthropic API error")] := by
    simp [AnthropicService.streamAnalysis, filterMap_yield_anthropic]
  have ho : OpenAIService.streamAnalysis
      ⟨texts.map (fun s => OpenAIChunk.mk (some s)), .failure msg⟩ =
      texts.map StreamChunk.content ++
        [.error (jsOrStr msg "OpenAI API error")] := by
    simp [OpenAIService.streamAnalysis, filterMap_yield_openai texts h]
  refine ⟨ha, ho, ?_, ?_⟩ <;>
    simp [ha, ho, List.mem_append]

/-- C2 witness: the spec's scenario, a transport failing after two chunks. -/
theorem streamAnalysis_midstream_error_witness :
    AnthropicService.streamAnalysis
        ⟨["chunk1", "chunk2"].map .textDelta, .failure (some "boom")⟩ =
        ["chunk1", "chunk2"].map StreamChunk.content ++
          [.error (jsOrStr (some "boom") "Anthropic API error")] ∧
    OpenAIService.streamAnalysis
        ⟨["chunk1", "chunk2"].map (fun s => OpenAIChunk.mk (some s)),
          .failure (some "boom")⟩ =
        ["chunk1", "chunk2"].map StreamChunk.content ++
          [.error (jsOrStr (some "boom") "OpenAI API error")] ∧
    StreamChunk.done ∉ AnthropicService.streamAnalysis
        ⟨["chunk1", "chunk2"].map .textDelta, .failure (some "boom")⟩ ∧
    StreamChunk.done ∉ OpenAIService.streamAnalysis
        ⟨["chunk1", "chunk2"].map (fun s => OpenAIChunk.mk (some s)),
          .failure (some "boom")⟩ :=
  streamAnalysis_midstream_error ["chunk1", "chunk2"] (some "boom") (by decide)

theorem splitAtChar_of_not_mem (c : Char) (l₁ l₂ : List Char) (h : c ∉ l₁) :
    splitAtChar c (l₁ ++ c :: l₂) = some (l₁, l₂) := by
  induction l₁ with
  | nil => simp [splitAtChar]
  | cons a t ih =>
      have hac : ¬(a = c) := fun e => h (by simp [e])
      have hct : c ∉ t := fun e => h (by simp [e])
      simp [splitAtChar, hac, ih hct]

theorem decodeDataUrl_roundtrip (mt b64 : String) (h : ';' ∉ mt.toList) :
    decodeDataUrl ("data:" ++ mt ++ ";base64," ++ b64) = some (mt, b64) := by
  have h1 : "data:".data = ['d', 'a', 't', 'a', ':'] := rfl
  have h2 : ";base64,".data = [';', 'b', 'a', 's', 'e', '6', '4', ','] := rfl
  have hl : ("data:" ++ mt ++ ";base64," ++ b64).toList =
      'd' :: 'a' :: 't' :: 'a' :: ':' ::
        (mt.toList ++ ';' ::
          ('b' :: 'a' :: 's' :: 'e' :: '6' :: '4' :: ',' :: b64.toList)) := by
    simp [String.toList, String.data_append, h1, h2]
  have hd : ';' ∉ mt.data := h
  have hmk : ∀ s : String, String.mk s.data = s := fun _ => rfl
  simp [decodeDataUrl, hl, splitAtChar_of_not_mem, hd, hmk]

/-- C3 counterexample: `visionAnalysis` given an empty content sequence (or a
malformed image fragment with empty media type and payload) does not raise any
input-validation error: on both adapters it proceeds directly to the vendor
network call, with an empty (resp. malformed) content array. -/
theorem visionStep_empty_content_cex :
    AnthropicService.visionStep AnthropicService.defaultModel [] none =
      .networkCall ⟨AnthropicService.defaultModel, 4000, []⟩ ∧
    OpenAIService.visionStep OpenAIService.defaultModel [] none =
      .networkCall ⟨OpenAIService.defaultModel, 4000, []⟩ ∧
    (AnthropicService.visionStep AnthropicService.defaultModel
        [⟨.image, none, some ⟨"", ""⟩⟩] none).isNetworkCall = true ∧
    (OpenAIService.visionStep OpenAIService.defaultModel
        [⟨.image, none, some ⟨"", ""⟩⟩] none).isNetworkCall = true := by
  refine ⟨rfl, rfl, rfl, rfl⟩

/-- C3 amended: `visionAnalysis` performs no input validation on either
adapter: for every content sequence, including the empty one, the first
observable action is the vendor network call with the serialized content, and
an image fragment with empty media type and payload is serialized and sent
as-is rather than rejected. -/
theorem visionStep_no_validation (model : String) (msgs : List VisionMessage)
    (mtok : Option Nat) :
    AnthropicService.visionStep model msgs mtok =
      .networkCall ⟨model, jsOrNat mtok 4000,
        AnthropicService.visionContent msgs⟩ ∧
    OpenAIService.visionStep model msgs mtok =
      .networkCall ⟨model, jsOrNat mtok 4000,
        OpenAIService.visionContent msgs⟩ ∧
    (AnthropicService.visionStep model msgs mtok).isNetworkCall = true ∧
    (OpenAIService.visionStep model msgs mtok).isNetworkCall = true ∧
    AnthropicService.visionContent (msgs ++ [⟨.image, none, some ⟨"", ""⟩⟩]) =
      AnthropicService.visionContent msgs ++ [.image ⟨"base64", "", ""⟩] ∧
    OpenAIService.visionContent (msgs ++ [⟨.image, none, some ⟨"", ""⟩⟩]) =
      OpenAIService.visionContent msgs ++ [.imageUrl "data:;base64,"] := by
  refine ⟨rfl, rfl, rfl, rfl, ?_, ?_⟩ <;>
    simp [AnthropicService.visionContent, AnthropicService.blockOfMessage,
      OpenAIService.visionContent, OpenAIService.blockOfMessage]

/-- C8: for a content sequence of one text fragment and one well-formed image
fragment, each adapter serializes the image in its vendor's documented shape
(Anthropic: nested base64 source object with explicit media type; OpenAI:
inline data-URL string), and decoding the constructed request recovers the
original base64 payload and media type unchanged. -/
theorem visionAnalysis_image_roundtrip (t mt b64 : String)
    (ht : t ≠ "") (hmt : ';' ∉ mt.toList) :
    AnthropicService.visionContent
        [⟨.text, some t, none⟩, ⟨.image, none, some ⟨b64, mt⟩⟩] =
      [.text t, .image ⟨"base64", mt, b64⟩] ∧
    OpenAIService.visionContent
        [⟨.text, some t, none⟩, ⟨.image, none, some ⟨b64, mt⟩⟩] =
      [.text t, .imageUrl ("data:" ++ mt ++ ";base64," ++ b64)] ∧
    decodeDataUrl ("data:" ++ mt ++ ";base64," ++ b64) = some (mt, b64) := by
  refine ⟨?_, ?_, decodeDataUrl_roundtrip mt b64 hmt⟩ <;>
    simp [AnthropicService.visionContent, AnthropicService.blockOfMessage,
      OpenAIService.visionContent, OpenAIService.blockOfMessage, ht]

/-- C8 witness: a concrete prompt text, media type `image/png` and payload. -/
theorem visionAnalysis_image_roundtrip_witness :
    AnthropicService.visionContent
        [⟨.text, some "Describe this", none⟩,
          ⟨.image, none, some ⟨"QUJDRA==", "image/png"⟩⟩] =
      [.text "Describe this", .image ⟨"base64", "image/png", "QUJDRA=="⟩] ∧
    OpenAIService.visionContent
        [⟨.text, some "Describe this", none⟩,
          ⟨.image, none, some ⟨"QUJDRA==", "image/png"⟩⟩] =
      [.text "Describe this",
        .imageUrl ("data:" ++ "image/png" ++ ";base64," ++ "QUJDRA==")] ∧
    decodeDataUrl ("data:" ++ "image/png" ++ ";base64," ++ "QUJDRA==") =
      some ("image/png", "QUJDRA==") :=
  visionAnalysis_image_roundtrip "Describe this" "image/png" "QUJDRA=="
    (by decide) (by decide)

theorem extractText_of_no_text_anthropic (blocks : List AnthropicRespBlock)
    (h : ∀ b ∈ blocks, b.isText = false) :
    AnthropicService.extractText blocks = "" := by
  cases blocks with
  | nil => rfl
  | cons b rest =>
      cases b with
      | text s =>
          have := h (.text s) (by simp)
          simp [AnthropicRespBlock.isText] at this
      | other => rfl

theorem extractText_of_no_text_openai (choices : List (Option String))
    (h : ∀ c ∈ choices, c = none) :
    OpenAIService.extractText choices = "" := by
  cases choices with
  | nil => rfl
  | cons c rest =>
      have hc : c = none := h c (by simp)
      subst hc
      rfl

/-- C9: when the vendor returns a well-formed response with no text-typed
content block, `visionAnalysis` on either adapter returns the empty string
rather than failing. -/
theorem visionAnalysis_no_text_block (model : String)
    (msgs : List VisionMessage) (mtok : Option Nat)
    (aResp : AnthropicVisionRequest → List AnthropicRespBlock)
    (oResp : OpenAIVisionRequest → List (Option String))
    (ha : ∀ req, ∀ b ∈ aResp req, b.isText = false)
    (ho : ∀ req, ∀ c ∈ oResp req, c = none) :
    AnthropicService.visionAnalysis model msgs mtok aResp = "" ∧
    OpenAIService.visionAnalysis model msgs mtok oResp = "" :=
  ⟨extractText_of_no_text_anthropic _ (ha _),
    extractText_of_no_text_openai _ (ho _)⟩

/-- C9 witness: concrete responses holding a single non-text block (Anthropic)
and a single choice with no message content (OpenAI). -/
theorem visionAnalysis_no_text_block_witness :
    AnthropicService.visionAnalysis "claude-sonnet-4-20250514"
        [⟨.text, some "hi", none⟩] none (fun _ => [.other]) = "" ∧
    OpenAIService.visionAnalysis "gpt-4o"
        [⟨.text, some "hi", none⟩] none (fun _ => [none]) = "" :=
  visionAnalysis_no_text_block "claude-sonnet-4-20250514"
    [⟨.text, some "hi", none⟩] none (fun _ => [.other]) (fun _ => [none])
    (by
      intro req b hb
      simp only [List.mem_singleton] at hb
      subst hb
      rfl)
    (by
      intro req c hc
      simpa using hc)

theorem jsOrStr_ne_empty (o : Option String) (d : String) (hd : d ≠ "") :
    jsOrStr o d ≠ "" := by
  cases o with
  | none => simpa [jsOrStr] using hd
  | some s => by_cases hs : s = "" <;> simp [jsOrStr, hs, hd]

theorem jsOrStr_some_of_ne (x b : String) (hx : x ≠ "") :
    jsOrStr (some x) b = x := by
  simp [jsOrStr, hx]

theorem getConfigFromEnv_ok_apiKey (p : Option String) (env : Env)
    (c : AIConfig) (h : AIServiceFactory.getConfigFromEnv p env = .ok c) :
    ¬ c.apiKey = "" := by
  simp only [AIServiceFactory.getConfigFromEnv] at h
  repeat' split at h
  all_goals first
    | (cases h; simp_all)
    | simp_all

/-- C5: `isProviderConfigured` is a total boolean function (it never raises),
and it returns `true` exactly when `getConfigFromEnv` for that identity
succeeds. -/
theorem isProviderConfigured_spec (p : String) (env : Env) :
    AIServiceFactory.isProviderConfigured p env =
      exceptSucceeds (AIServiceFactory.getConfigFromEnv (some p) env) := by
  unfold AIServiceFactory.isProviderConfigured
  cases hc : AIServiceFactory.getConfigFromEnv (some p) env with
  | ok c =>
      have hk := getConfigFromEnv_ok_apiKey (some p) env c hc
      simp [exceptSucceeds, hk]
  | error e => simp [exceptSucceeds]

theorem isProviderConfigured_anthropic (env : Env) :
    AIServiceFactory.isProviderConfigured "anthropic" env =
      jsTruthy env.ANTHROPIC_API_KEY := by
  obtain ⟨ap, aak, abu, am, oak, obu, om⟩ := env
  cases aak with
  | none => rfl
  | some k =>
      by_cases hk : k = "" <;>
        simp [AIServiceFactory.isProviderConfigured,
          AIServiceFactory.getConfigFromEnv, jsOrStr, jsTruthy, hk]

theorem isProviderConfigured_openai (env : Env) :
    AIServiceFactory.isProviderConfigured "openai" env =
      jsTruthy env.OPENAI_API_KEY := by
  obtain ⟨ap, aak, abu, am, oak, obu, om⟩ := env
  cases oak with
  | none => rfl
  | some k =>
      by_cases hk : k = "" <;>
        simp [AIServiceFactory.isProviderConfigured,
          AIServiceFactory.getConfigFromEnv, jsOrStr, jsTruthy, hk]

/-- C6: `getAvailableProviders` returns exactly the known identities whose
credential is present (truthy) in the environment, in the fixed order
`anthropic` before `openai`; equivalently, the known identities that
`isProviderConfigured` accepts. Every factory operation is a pure function of
the environment, so no call order can affect the result. -/
theorem getAvailableProviders_spec (env : Env) :
    AIServiceFactory.getAvailableProviders env =
      AIServiceFactory.knownProviders.filter
        (fun p => AIServiceFactory.isProviderConfigured p env) ∧
    AIServiceFactory.getAvailableProviders env =
      AIServiceFactory.knownProviders.filter
        (fun p => jsTruthy (AIServiceFactory.credential p env)) := by
  have ha := isProviderConfigured_anthropic env
  have ho := isProviderConfigured_openai env
  cases h1 : jsTruthy env.ANTHROPIC_API_KEY <;>
    cases h2 : jsTruthy env.OPENAI_API_KEY <;>
      simp_all [AIServiceFactory.getAvailableProviders,
        AIServiceFactory.knownProviders, AIServiceFactory.credential,
        List.filter]

/-- C4: for each known identity, `getConfigFromEnv` fails with that identity's
missing-credential error exactly when the identity's credential is not truthy
in the environment; on success the returned config carries the identity, the
credential, and the raw per-identity endpoint and model overrides. When no
identity is supplied, the identity is resolved from `AI_PROVIDER`, falling
back to the fixed default `anthropic` when that setting is absent. -/
theorem getConfigFromEnv_spec (p : String) (env : Env)
    (hp : p ∈ AIServiceFactory.knownProviders) :
    (jsTruthy (AIServiceFactory.credential p env) = false →
      AIServiceFactory.getConfigFromEnv (some p) env =
        .error (AIServiceFactory.missingKeyMsg p)) ∧
    (jsTruthy (AIServiceFactory.credential p env) = true →
      ∃ key, AIServiceFactory.credential p env = some key ∧
        AIServiceFactory.getConfigFromEnv (some p) env =
          .ok ⟨p, key, AIServiceFactory.baseURLOverride p env,
            AIServiceFactory.modelOverride p env⟩) ∧
    AIServiceFactory.getConfigFromEnv none env =
      AIServiceFactory.getConfigFromEnv
        (some (jsOrStr env.AI_PROVIDER "anthropic")) env := by
  have hdflt : AIServiceFactory.getConfigFromEnv none env =
      AIServiceFactory.getConfigFromEnv
        (some (jsOrStr env.AI_PROVIDER "anthropic")) env := by
    have hq :=
      jsOrStr_ne_empty env.AI_PROVIDER "anthropic" (by decide)
    simp only [AIServiceFactory.getConfigFromEnv,
      jsOrStr_some_of_ne _ _ hq]
    rfl
  simp only [AIServiceFactory.knownProviders, List.mem_cons,
    List.mem_singleton, List.not_mem_nil, or_false] at hp
  obtain ⟨ap, aak, abu, am, oak, obu, om⟩ := env
  rcases hp with hp | hp <;> subst hp <;>
    refine ⟨?_, ?_, hdflt⟩
  · intro hf
    cases aak with
    | none => rfl
    | some k =>
        have hk : k = "" := by
          simpa [AIServiceFactory.credential, jsTruthy] using hf
        subst hk
        rfl
  · intro htr
    cases aak with
    | none => simp [AIServiceFactory.credential, jsTruthy] at htr
    | some k =>
        have hk : ¬ k = "" := by
          simpa [AIServiceFactory.credential, jsTruthy] using htr
        exact ⟨k, rfl, by
          simp [AIServiceFactory.getConfigFromEnv, jsOrStr, hk,
            AIServiceFactory.baseURLOverride, AIServiceFactory.modelOverride]⟩
  · intro hf
    cases oak with
    | none => rfl
    | some k =>
        have hk : k = "" := by
          simpa [AIServiceFactory.credential, jsTruthy] using hf
        subst hk
        rfl
  · intro htr
    cases oak with
    | none => simp [AIServiceFactory.credential, jsTruthy] at htr
    | some k =>
        have hk : ¬ k = "" := by
          simpa [AIServiceFactory.credential, jsTruthy] using htr
        exact ⟨k, rfl, by
          simp [AIServiceFactory.getConfigFromEnv, jsOrStr, hk,
            AIServiceFactory.baseURLOverride, AIServiceFactory.modelOverride]⟩

/-- C4 witness: a concrete environment with an Anthropic key and both
overrides set, and no `AI_PROVIDER`. -/
theorem getConfigFromEnv_spec_witness :
    (jsTruthy (AIServiceFactory.credential "anthropic"
        ⟨none, some "sk-ant", some "https://alt.example", some "claude-3-5",
          none, none, none⟩) = false →
      AIServiceFactory.getConfigFromEnv (some "anthropic")
          ⟨none, some "sk-ant", some "https://alt.example", some "claude-3-5",
            none, none, none⟩ =
        .error (AIServiceFactory.missingKeyMsg "anthropic")) ∧
    (jsTruthy (AIServiceFactory.credential "anthropic"
        ⟨none, some "sk-ant", some "https://alt.example", some "claude-3-5",
          none, none, none⟩) = true →
      ∃ key, AIServiceFactory.credential "anthropic"
          ⟨none, some "sk-ant", some "https://alt.example", some "claude-3-5",
            none, none, none⟩ = some key ∧
        AIServiceFactory.getConfigFromEnv (some "anthropic")
            ⟨none, some "sk-ant", some "https://alt.example", some "claude-3-5",
              none, none, none⟩ =
          .ok ⟨"anthropic", key,
            AIServiceFactory.baseURLOverride "anthropic"
              ⟨none, some "sk-ant", some "https://alt.example",
                some "claude-3-5", none, none, none⟩,
            AIServiceFactory.modelOverride "anthropic"
              ⟨none, some "sk-ant", some "https://alt.example",
                some "claude-3-5", none, none, none⟩⟩) ∧
    AIServiceFactory.getConfigFromEnv none
        ⟨none, some "sk-ant", some "https://alt.example", some "claude-3-5",
          none, none, none⟩ =
      AIServiceFactory.getConfigFromEnv
        (some (jsOrStr (none : Option String) "anthropic"))
        ⟨none, some "sk-ant", some "https://alt.example", some "claude-3-5",
          none, none, none⟩ :=
  getConfigFromEnv_spec "anthropic"
    ⟨none, some "sk-ant", some "https://alt.example", some "claude-3-5",
      none, none, none⟩ (by decide)

/-- C7: `create` with an identity outside the known set fails with the
unsupported-provider error; with a known identity it returns the matching
adapter state (binding the configured model or the vendor default), built by
a pure function with no other effects. -/
theorem create_spec (config : AIConfig) :
    (config.provider ∉ AIServiceFactory.knownProviders →
      AIServiceFactory.create config =
        .error ("Unsupported AI provider: " ++ config.provider)) ∧
    (config.provider ∈ AIServiceFactory.knownProviders →
      AIServiceFactory.create config =
        .ok ⟨config.provider, config.apiKey, config.baseURL,
          jsOrStr config.model
            (if config.provider = "anthropic" then AnthropicService.defaultModel
             else OpenAIService.defaultModel)⟩) := by
  constructor
  · intro hn
    simp only [AIServiceFactory.knownProviders, List.mem_cons,
      List.mem_singleton, List.not_mem_nil, or_false, not_or] at hn
    simp [AIServiceFactory.create, hn.1, hn.2]
  · intro hk
    simp only [AIServiceFactory.knownProviders, List.mem_cons,
      List.mem_singleton, List.not_mem_nil, or_false] at hk
    rcases hk with h | h <;> simp [AIServiceFactory.create, h]

/-- C7 witness: an unknown identity `gemini` fails; the known identity
`openai` yields the OpenAI adapter state with the default model. -/
theorem create_spec_witness :
    AIServiceFactory.create ⟨"gemini", "k", none, none⟩ =
      .error ("Unsupported AI provider: " ++ "gemini") ∧
    AIServiceFactory.create ⟨"openai", "k", none, none⟩ =
      .ok ⟨"openai", "k", none,
        jsOrStr none
          (if ("openai" : String) = "anthropic" then AnthropicService.defaultModel
           else OpenAIService.defaultModel)⟩ :=
  ⟨(create_spec ⟨"gemini", "k", none, none⟩).1 (by decide),
    (create_spec ⟨"openai", "k", none, none⟩).2 (by decide)⟩

theorem charsLeading_iff (pat hay : List Char) :
    charsLeading pat hay = true ↔ pat <+: hay := by
  induction pat generalizing hay with
  | nil => simp [charsLeading]
  | cons a as ih =>
      cases hay with
      | nil => simp [charsLeading]
      | cons b bs => simp [charsLeading, List.cons_prefix_cons, ih]

theorem charsContain_iff (hay pat : List Char) :
    charsContain hay pat = true ↔ pat <:+: hay := by
  induction hay with
  | nil => simp [charsContain, List.isEmpty_iff]
  | cons a t ih =>
      simp [charsContain, charsLeading_iff, ih, List.infix_cons_iff]

/-- C10: the vision-capability flag of `getModelInfo` is provider- and
model-dependent: the Anthropic adapter always reports support, while the
OpenAI adapter reports support exactly when the bound model name contains the
substring `gpt-4` or equals `gpt-4o`, so it reports `false` for
`gpt-3.5-turbo`. Both are pure functions of the bound model name, so repeated
calls on one instance agree. -/
theorem getModelInfo_supportsVision (model : String) :
    (AnthropicService.getModelInfo model).supportsVision = true ∧
    ((OpenAIService.getModelInfo model).supportsVision = true ↔
      "gpt-4".toList <:+: model.toList ∨ model = "gpt-4o") ∧
    (OpenAIService.getModelInfo "gpt-3.5-turbo").supportsVision = false := by
  refine ⟨rfl, ?_, by decide⟩
  simp [OpenAIService.getModelInfo, strIncludes, charsContain_iff]
